import Mathlib

/-!
Verification development: of the photo-watermark tool (`watermark_exif_date.py`, `watermark_app.py`)

Shallow embedding of the watermark compositing engine and the EXIF-date CLI:
placement resolution, custom-position clamping and fallback, EXIF date
normalization, image-watermark alpha compositing, output-filename policy,
file iteration, and the CLI exit-code behaviour.

Machine integers do not occur: Python integers are unbounded, so they are
modelled as `Int`/`Nat`.  Python `//` (floor division) is `Int.fdiv`.
-/

namespace Watermark

/-! Section: Python string primitives

The Python string operations used by the source are modelled over `List Char`
(`String.data`).  Only the exact operations the source performs are modelled:
`str.strip()` (default whitespace strip), `str.split(sep)` for a one-character
separator (which keeps empty fields, and on an empty string yields `[""]`),
`str.replace(old, new)` for a one-character pattern, `str.startswith`,
`str.lower`, `int(s)` (optional surrounding whitespace, optional sign, ASCII
digits; the Python underscore digit grouping and non-ASCII digits are not
modelled, no claim exercises them), and the substring test `needle in s`. -/

/-- Python `str` whitespace (the characters stripped by `str.strip()`):
space, tab, newline, carriage return, vertical tab, form feed. -/
def pyIsSpace (c : Char) : Bool :=
  c = ' ' || c = '\t' || c = '\n' || c = '\r' || c = '\x0b' || c = '\x0c'

/-- Python `s.strip()`. -/
def pyStrip (s : String) : String :=
  String.mk (((s.data.dropWhile pyIsSpace).reverse.dropWhile pyIsSpace).reverse)

/-- Helper for `pySplitChar`: splits a character list at every occurrence of
`sep`, keeping empty fields (Python `str.split(sep)` semantics). -/
def pySplitCharAux (sep : Char) : List Char → List Char → List (List Char)
  | [], acc => [acc.reverse]
  | c :: rest, acc =>
    if c = sep then acc.reverse :: pySplitCharAux sep rest []
    else pySplitCharAux sep rest (c :: acc)

/-- Python `s.split(sep)` for a one-character separator `sep`.
Note `"".split(sep) = [""]` and empty fields are kept. -/
def pySplitChar (sep : Char) (s : String) : List String :=
  (pySplitCharAux sep s.data []).map String.mk

/-- Python `s.replace(old, new)` where `old` and `new` are single characters. -/
def pyReplaceChar (old new : Char) (s : String) : String :=
  String.mk (s.data.map fun c => if c = old then new else c)

/-- Python `s.startswith(p)`. -/
def pyStartsWith (p s : String) : Bool :=
  p.data.isPrefixOf s.data

/-- Python `s.lower()` (ASCII case folding suffices for the file suffixes the
source compares). -/
def pyLower (s : String) : String :=
  String.mk (s.data.map Char.toLower)

/-- All-ASCII-digit run to a number; `none` on an empty or non-digit run. -/
def digitsToNat? (cs : List Char) : Option Nat :=
  if cs.isEmpty then none
  else if cs.all Char.isDigit then
    some (cs.foldl (fun n c => 10 * n + (c.toNat - '0'.toNat)) 0)
  else none

/-- Python `int(s)`: surrounding whitespace allowed, optional `+`/`-` sign,
then a nonempty ASCII digit run; anything else raises (modelled as `none`). -/
def pyInt? (s : String) : Option Int :=
  match (pyStrip s).data with
  | '-' :: ds => (digitsToNat? ds).map fun n => -(n : Int)
  | '+' :: ds => (digitsToNat? ds).map fun n => (n : Int)
  | ds => (digitsToNat? ds).map fun n => (n : Int)

/-- Helper for `pyContains`: does `needle` occur as a contiguous sublist? -/
def containsSublist (needle : List Char) : List Char → Bool
  | [] => needle.isEmpty
  | c :: rest => needle.isPrefixOf (c :: rest) || containsSublist needle rest

/-- Python `needle in haystack` substring test. -/
def pyContains (needle haystack : String) : Bool :=
  containsSublist needle.data haystack.data

/-! Section: EXIF date extraction (`watermark_exif_date.py`, `extract_exif_date`)

An EXIF tag value is either a `str`, a `bytes` (a byte list), or some other
Python object; the source only distinguishes those three shapes
(`isinstance(value, bytes)` / `isinstance(value, str)` / anything else).
Non-`str`/`bytes` values carry no data the source inspects beyond truthiness,
so they are modelled by their truthiness alone. -/

inductive ExifValue where
  | vStr (s : String)
  | vBytes (bs : List Nat)
  /-- any value that is neither `str` nor `bytes`; the flag is its Python
  truthiness -/
  | vOther (truthy : Bool)
deriving DecidableEq, Repr

/-- Python truthiness of a tag value: empty `str`/`bytes` are falsy. -/
def ExifValue.truthy : ExifValue → Bool
  | .vStr s => !s.data.isEmpty
  | .vBytes bs => !bs.isEmpty
  | .vOther t => t

/-- The EXIF dictionary as the source accesses it: the three datetime tags
(`DateTimeOriginal` = 36867, `DateTimeDigitized` = 36868, `DateTime` = 306),
plus a flag recording whether the dictionary holds any other entries (the
source only tests the truthiness of the whole dictionary, `if not exif`). -/
structure Exif where
  dateTimeOriginal : Option ExifValue
  dateTimeDigitized : Option ExifValue
  dateTime : Option ExifValue
  hasOtherTags : Bool
deriving DecidableEq, Repr

/-- Python `if not exif`: the EXIF dict is falsy iff it has no entries. -/
def Exif.isEmptyDict (e : Exif) : Bool :=
  e.dateTimeOriginal.isNone && e.dateTimeDigitized.isNone
    && e.dateTime.isNone && !e.hasOtherTags

/-- UTF-8 lead/continuation validity for `decodeUtf8Ignore`. -/
def isUtf8Cont (b : Nat) : Bool := 0x80 ≤ b && b ≤ 0xBF

/-- Model of `bytes.decode("utf-8", errors="ignore")`: decode UTF-8, dropping bytes
that do not form a valid sequence (overlongs, surrogates and out-of-range
code points rejected).  Structured as fuel recursion (fuel = list length) so
it evaluates by kernel reduction. -/
def decodeUtf8IgnoreAux : Nat → List Nat → List Char
  | 0, _ => []
  | _, [] => []
  | fuel + 1, b :: rest =>
    if b < 0x80 then
      Char.ofNat b :: decodeUtf8IgnoreAux fuel rest
    else if 0xC2 ≤ b && b ≤ 0xDF then
      match rest with
      | b1 :: rest1 =>
        if isUtf8Cont b1 then
          Char.ofNat (((b - 0xC0) * 64) + (b1 - 0x80)) :: decodeUtf8IgnoreAux fuel rest1
        else decodeUtf8IgnoreAux fuel rest
      | [] => []
    else if 0xE0 ≤ b && b ≤ 0xEF then
      match rest with
      | b1 :: b2 :: rest2 =>
        let cp := ((b - 0xE0) * 4096) + ((b1 - 0x80) * 64) + (b2 - 0x80)
        if isUtf8Cont b1 && isUtf8Cont b2 && decide (0x800 ≤ cp)
            && !(0xD800 ≤ cp && cp ≤ 0xDFFF) then
          Char.ofNat cp :: decodeUtf8IgnoreAux fuel rest2
        else decodeUtf8IgnoreAux fuel rest
      | _ => decodeUtf8IgnoreAux fuel rest
    else if 0xF0 ≤ b && b ≤ 0xF4 then
      match rest with
      | b1 :: b2 :: b3 :: rest3 =>
        let cp := ((b - 0xF0) * 262144) + ((b1 - 0x80) * 4096)
          + ((b2 - 0x80) * 64) + (b3 - 0x80)
        if isUtf8Cont b1 && isUtf8Cont b2 && isUtf8Cont b3
            && decide (0x10000 ≤ cp) && decide (cp ≤ 0x10FFFF) then
          Char.ofNat cp :: decodeUtf8IgnoreAux fuel rest3
        else decodeUtf8IgnoreAux fuel rest
      | _ => decodeUtf8IgnoreAux fuel rest
    else
      -- invalid lead byte: ignored
      decodeUtf8IgnoreAux fuel rest

/-- Model of `bytes.decode("utf-8", errors="ignore")` on a byte list. -/
def decodeUtf8Ignore (bs : List Nat) : String :=
  String.mk (decodeUtf8IgnoreAux bs.length bs)

/-- A tag value as a string, following the `isinstance` chain of the source:
a `str` is used directly, a `bytes` is decoded UTF-8/ignore-errors, and any
other type falls through the `isinstance(value, str)` test (skipped). -/
def ExifValue.asStr : ExifValue → Option String
  | .vStr s => some s
  | .vBytes bs => some (decodeUtf8Ignore bs)
  | .vOther _ => none

/-- The body of the per-tag loop of the source once a `str` value is in hand:
`parts = value.strip().split(" ")`; if `parts` is empty continue (dead code:
Python `split(" ")` never returns an empty list); else take `parts[0]` and
replace `":"` with `"-"`.  The subsequent `datetime.strptime` validation is a
`try/except: pass` whose outcome never changes the returned value, so it has
no observable effect and is not modelled. -/
def dateFromStr (s : String) : Option String :=
  match pySplitChar ' ' (pyStrip s) with
  | [] => none
  | d :: _ => some (pyReplaceChar ':' '-' d)

/-- The loop of the source over the three datetime tags, in the order of line 110:
skip an absent tag, skip a falsy value, skip a non-`str`/`bytes` value,
otherwise return the normalized date part. -/
def extractLoop : List (Option ExifValue) → Option String
  | [] => none
  | none :: rest => extractLoop rest
  | some v :: rest =>
    if !v.truthy then extractLoop rest
    else
      match v.asStr with
      | none => extractLoop rest
      | some s =>
        match dateFromStr s with
        | none => extractLoop rest
        | some d => some d

/-- Embedding of `extract_exif_date` (lines 102–138).  The argument is the result of
`image.getexif()`: `none` models the `except Exception: return None` around
an unreadable metadata block. -/
def extract_exif_date (exifRead : Option Exif) : Option String :=
  match exifRead with
  | none => none
  | some exif =>
    if exif.isEmptyDict then none
    else extractLoop [exif.dateTimeOriginal, exif.dateTimeDigitized, exif.dateTime]

/-! Section: Placement resolution

Two implementations exist in the repository and are both embedded:
`compute_position` in `watermark_exif_date.py` (lines 155–173) and the
`WATERMARK_POSITIONS` table in `watermark_app.py` (lines 37–43) consumed by
`WatermarkApp._calculate_watermark_position` (lines 1167–1200).
Python `//` is floor division, `Int.fdiv`. -/

/-- Embedding of `compute_position(img_size, text_size, position, margin)`
(`watermark_exif_date.py` lines 155–173): the if-chain over the position
keyword; any keyword other than the four corners falls through to the
center formula. -/
def compute_position (img_size text_size : Int × Int) (position : String)
    (margin : Int) : Int × Int :=
  let (img_w, img_h) := img_size
  let (text_w, text_h) := text_size
  if position = "tl" then (margin, margin)
  else if position = "tr" then (img_w - text_w - margin, margin)
  else if position = "bl" then (margin, img_h - text_h - margin)
  else if position = "br" then (img_w - text_w - margin, img_h - text_h - margin)
  else ((img_w - text_w).fdiv 2, (img_h - text_h).fdiv 2)

/-- The `WATERMARK_POSITIONS` dict of `watermark_app.py` (lines 37–43): keys
to anchor lambdas `(img_w, img_h, w, h, m) ↦ (x, y)` (the Chinese display
names carried alongside are dropped). -/
def WATERMARK_POSITIONS : List (String × (Int → Int → Int → Int → Int → Int × Int)) :=
  [ ("tl", fun _ _ _ _ m => (m, m)),
    ("tr", fun img_w _ w _ m => (img_w - w - m, m)),
    ("bl", fun _ img_h _ h m => (m, img_h - h - m)),
    ("br", fun img_w img_h w h m => (img_w - w - m, img_h - h - m)),
    ("center", fun img_w img_h w h _ => ((img_w - w).fdiv 2, (img_h - h).fdiv 2)) ]

/-- Lookup modelling `key in WATERMARK_POSITIONS` plus `WATERMARK_POSITIONS[key]`. -/
def lookupPosition (key : String) :
    Option (Int → Int → Int → Int → Int → Int × Int) :=
  (WATERMARK_POSITIONS.find? (fun p => p.1 = key)).map Prod.snd

/-- The `try` body of the `custom_` branch of
`_calculate_watermark_position` (lines 1172–1189): unpack
`_, preview_x, preview_y = last_position.split("_")` (exactly three fields or
`ValueError`), read the preview label size, compute
`scale = img / preview` (`ZeroDivisionError` when a preview dimension is 0),
map the point, and clamp both axes with `max(0, min(·, img - wm))`.
`none` models any exception (caught by the `except:` at line 1190).

The mapping `x = int(int(preview_x) * scale_x)` is floating-point; floats
have no shallow embedding, so the map from a parsed preview point to a
full-resolution point is abstracted as the parameter `toFull` (it is only
reached when both preview dimensions are nonzero, hence the model applies it
under that guard).  Every theorem about this branch holds for an arbitrary
`toFull`. -/
def tryCustomPosition (toFull : Int → Int → Int × Int) (last_position : String)
    (preview_w preview_h : Int) (img_width img_height wm_width wm_height : Int) :
    Option (Int × Int) :=
  match pySplitChar '_' last_position with
  | [_, preview_x, preview_y] =>
    if preview_w = 0 || preview_h = 0 then none
    else
      match pyInt? preview_x, pyInt? preview_y with
      | some px, some py =>
        let (x, y) := toFull px py
        some (max 0 (min x (img_width - wm_width)),
              max 0 (min y (img_height - wm_height)))
      | _, _ => none
  | _ => none

/-- Embedding of `WatermarkApp._calculate_watermark_position` (lines 1167–1200): the
`custom_` branch with its exception fallback (`last_position = "br"`, then
the preset table), the preset-table branch, and the final bottom-right
default. -/
def calculate_watermark_position (toFull : Int → Int → Int × Int)
    (last_position : String) (preview_w preview_h : Int)
    (img_width img_height wm_width wm_height margin : Int) : Int × Int :=
  if pyStartsWith "custom_" last_position then
    match tryCustomPosition toFull last_position preview_w preview_h
        img_width img_height wm_width wm_height with
    | some p => p
    | none =>
      -- the except handler sets last_position = "br", found in WATERMARK_POSITIONS
      (img_width - wm_width - margin, img_height - wm_height - margin)
  else
    match lookupPosition last_position with
    | some f => f img_width img_height wm_width wm_height margin
    | none => (img_width - wm_width - margin, img_height - wm_height - margin)

/-! Section: Image watermark compositing (`WatermarkApp._apply_image_watermark`)

Lines 1129–1165.  A raster is a row list of RGBA pixels (the method is
entered after `_apply_watermark` converted the base to RGBA, and converts the
overlay to RGBA itself).  The `LANCZOS` resize (line 1142) is floating-point
resampling and is abstracted: the model takes the overlay as the
already-resized raster, which is sound because every claim about this method
quantifies over all overlay rasters.

`Image.paste(im, box, mask)` with an RGBA `mask` blends each of the four
bands of destination and source weighted by the alpha band of the mask; per
sample, Pillow computes `BLEND(m, d, s) = MULDIV255(d, 255 - m) +
MULDIV255(s, m)` with `MULDIV255(a, b) = SHIFTFORDIV255(a*b + 128)` and
`SHIFTFORDIV255(t) = ((t >> 8) + t) >> 8` (libImaging `Paste.c`); pixels
outside the pasted box are untouched. -/

structure RGBA where
  r : Nat
  g : Nat
  b : Nat
  a : Nat
deriving DecidableEq, Repr

/-- A pixel with every sample in `0..255`. -/
def RGBA.valid (p : RGBA) : Prop :=
  p.r ≤ 255 ∧ p.g ≤ 255 ∧ p.b ≤ 255 ∧ p.a ≤ 255

instance (p : RGBA) : Decidable p.valid := by
  unfold RGBA.valid; infer_instance

/-- A raster as rows of pixels. -/
abbrev Img := List (List RGBA)

/-- Every sample of every pixel is in `0..255`. -/
def Img.valid (img : Img) : Prop :=
  ∀ row ∈ img, ∀ p ∈ row, p.valid

instance (img : Img) : Decidable img.valid := by
  unfold Img.valid; infer_instance

/-- Model of the Pillow exact-division-by-255 trick: `MULDIV255(a, b)`. -/
def muldiv255 (a b : Nat) : Nat :=
  let t := a * b + 128
  ((t / 256) + t) / 256

/-- One sample of the Pillow masked paste: destination `d`, source `s`,
mask value `m`. -/
def blendSample (m d s : Nat) : Nat :=
  muldiv255 d (255 - m) + muldiv255 s m

/-- One pixel of the masked paste; the mask value is the alpha of the source
pixel (the `mask` argument of line 1163 is the overlay itself). -/
def blendPixel (d s : RGBA) : RGBA :=
  ⟨blendSample s.a d.r s.r, blendSample s.a d.g s.g,
   blendSample s.a d.b s.b, blendSample s.a d.a s.a⟩

/-- Pixel of a raster at integer coordinates, `none` outside its extent. -/
def pixelAt (img : Img) (i j : Int) : Option RGBA :=
  if 0 ≤ i ∧ 0 ≤ j then
    match (img : List (List RGBA))[j.toNat]? with
    | none => none
    | some row => row[i.toNat]?
  else none

/-- Map a function over one row with the running column index. -/
def mapRowIdx (f : Nat → RGBA → RGBA) : Nat → List RGBA → List RGBA
  | _, [] => []
  | i, p :: rest => f i p :: mapRowIdx f (i + 1) rest

/-- Map a function over a raster with running row/column indices. -/
def mapImgIdx (f : Nat → Nat → RGBA → RGBA) : Nat → Img → Img
  | _, [] => []
  | j, row :: rest => mapRowIdx (f · j ·) 0 row :: mapImgIdx f (j + 1) rest

/-- Model of `result.paste(wm_img, (x, y), wm_img)` after `result` was made an exact
copy of the base (lines 1161–1163): inside the overlay footprint each pixel
blends with the overlay pixel using the overlay alpha as mask; outside, the
base pixel stands. -/
def pasteMasked (base wm : Img) (x y : Int) : Img :=
  mapImgIdx
    (fun i j d =>
      match pixelAt wm ((i : Int) - x) ((j : Int) - y) with
      | none => d
      | some s => blendPixel d s)
    0 base

/-- Line 1151, `a.point(lambda x: int(x * opacity / 100))` applied to the
alpha band only: RGB untouched.  `x * opacity / 100` is Python float
division, but for `x ≤ 255` and `opacity ≤ 100` the product is at most
25500, small enough that truncating the double quotient coincides with
integer floor division, which is how it is written here. -/
def scaleAlpha (opacity : Nat) (wm : Img) : Img :=
  (wm : List (List RGBA)).map fun row =>
    row.map fun p => ⟨p.r, p.g, p.b, p.a * opacity / 100⟩

/-- Embedding of `WatermarkApp._apply_image_watermark` (lines 1129–1165) from the point
where the resized RGBA overlay is in hand: scale its alpha band by
`opacity/100`, then masked-paste it at the resolved position onto a copy of
the base.  The resolved `(x, y)` is a parameter (the method obtains it from
`_calculate_watermark_position`, embedded separately). -/
def apply_image_watermark (img wm : Img) (opacity : Nat) (x y : Int) : Img :=
  pasteMasked img (scaleAlpha opacity wm) x y

/-! Section: Output filename policy (`WatermarkApp._get_output_filename`)

Lines 1034–1056.  The naming rule is one of three radio buttons; the final
`else` (no radio checked, unreachable through the exclusive radio group)
repeats the keep-original formula.  The output format is the combo box text
(`"JPEG (*.jpg)"` or `"PNG (*.png)"`, line 342) tested with
`"PNG" in output_format`. -/

inductive NamingRule where
  | keepName
  | addPrefixRule (prefixText : String)
  | addSuffixRule (suffixText : String)
  /-- case of no radio checked: the final `else` of the method -/
  | noneChecked
deriving DecidableEq, Repr

/-- Embedding of `WatermarkApp._get_output_filename`: the source splits the input path
into `image_path.stem` and `image_path.suffix` (the suffix, line 1037, is
computed but never used — the output extension comes only from the format
combo). -/
def get_output_filename (stem source_suffix : String) (output_format : String)
    (rule : NamingRule) : String :=
  let _ := pyLower source_suffix    -- line 1037: original_ext, dead
  let ext := if pyContains "PNG" output_format then ".png" else ".jpg"
  match rule with
  | .keepName => stem ++ ext
  | .addPrefixRule p => p ++ stem ++ ext
  | .addSuffixRule s => stem ++ s ++ ext
  | .noneChecked => stem ++ ext

/-! Section: Paths, file iteration and the CLI (`watermark_exif_date.py`)

A filesystem path is a component list (absolute paths: components from the
root).  in `pathlib`, `name` is the last component, `parent` drops it, `/`
appends, and ordering of paths inside one directory is ordering of names
(Python compares `Path`s by their part tuples; code-point string order). -/

/-- Model of `Path.suffix` on a file name (CPython `PurePath.suffix`): the part from
the last dot, empty when the name has no dot, starts with its only dot, or
ends with its last dot. -/
def pathSuffix (name : String) : String :=
  match (pySplitCharAux '.' name.data []).reverse with
  | ext :: _ :: _ =>
    -- at least one dot; ext is the run after the last dot
    if ext.isEmpty then ""                              -- name ends with a dot
    else if name.data.length = ext.length + 1 then ""   -- only dot is leading
    else String.mk ('.' :: ext)
  | _ => ""

/-- Embedding of `SUPPORTED_EXTENSIONS` from `watermark_exif_date.py` (lines 30–37); note
no `.bmp` (the own table of the GUI, line 32–34 of `watermark_app.py`, has it). -/
def SUPPORTED_EXTENSIONS : List String :=
  [".jpg", ".jpeg", ".png", ".tif", ".tiff", ".webp"]

/-- Test `p.suffix.lower() in SUPPORTED_EXTENSIONS`. -/
def hasSupportedExt (name : String) : Bool :=
  SUPPORTED_EXTENSIONS.contains (pyLower (pathSuffix name))

/-- One directory entry as `iter_image_files` inspects it: its name and
whether `p.is_file()` holds. -/
structure FsEntry where
  name : String
  isFile : Bool
deriving DecidableEq, Repr

/-- The CLI `input_path` as the source queries it: `exists()`, `is_file()`,
`is_dir()`, and for a directory the entries of `iterdir()` (its direct
children, in unspecified filesystem order). -/
inductive InputPath where
  /-- case where `exists()` is false -/
  | missing
  /-- an existing regular file with this name -/
  | file (name : String)
  /-- an existing directory and its direct children -/
  | dir (entries : List FsEntry)
deriving Repr

def InputPath.pathExists : InputPath → Bool
  | .missing => false
  | _ => true

/-- Lexicographic code-point order on character lists: the Python `str`
comparison, which drives `sorted()` on `Path`s. -/
def lexLe : List Char → List Char → Bool
  | [], _ => true
  | _ :: _, [] => false
  | a :: as, b :: bs =>
    if a.toNat < b.toNat then true
    else if b.toNat < a.toNat then false
    else lexLe as bs

/-- Order on directory entries: by name. -/
def entryLe (a b : FsEntry) : Bool :=
  lexLe a.name.data b.name.data

/-- Insert into a sorted entry list. -/
def insertEntry (e : FsEntry) : List FsEntry → List FsEntry
  | [] => [e]
  | x :: xs => if entryLe e x then e :: x :: xs else x :: insertEntry e xs

/-- Model of `sorted(path.iterdir())`: entries sorted by name (paths share the
directory prefix, so `Path` order is name order; insertion sort realizes
the Python ascending sort). -/
def sortEntries : List FsEntry → List FsEntry
  | [] => []
  | e :: es => insertEntry e (sortEntries es)

/-- Embedding of `iter_image_files` (lines 91–99): a supported regular file yields
itself; a directory yields its sorted direct children that are regular files
with a supported suffix; anything else yields nothing.  `iterdir()` lists
only direct children, so no recursion into subdirectories occurs. -/
def iter_image_files : InputPath → List String
  | .missing => []
  | .file n => if hasSupportedExt n then [n] else []
  | .dir es =>
    ((sortEntries es).filter fun e => e.isFile && hasSupportedExt e.name).map
      FsEntry.name

/-- Embedding of `ensure_output_dir` (lines 208–213) as called from `main` (line 256),
where the argument is always the source *directory* (the input itself when it
is a directory, else its parent), so `base.is_file()` is false and
`parent = base`: the output directory is `base / (base.name + "_watermark")`.
Directory creation (`mkdir(parents=True, exist_ok=True)`) is a filesystem
effect outside the path computation. -/
def ensure_output_dir (base : List String) : List String :=
  base ++ [(base.getLast?.getD "") ++ "_watermark"]

/-- Outcome of `process_image_file` (lines 216–232) for one file: the body
is wrapped in `try/except Exception`, so the only outcomes are the `[SKIP]`
print (no EXIF date), the `[OK]` save, or the `[ERROR]` print — never a
raised exception. -/
inductive FileOutcome where
  | ok
  | skipped
  | errorCaught
deriving DecidableEq, Repr

/-- What can happen while processing one file, as `process_image_file`
branches on it: opening/decoding may raise, the EXIF date may be absent or
empty (`if not date_text`), and rendering or saving may raise. -/
structure FileFate where
  /-- flag set when `Image.open` or decode raises -/
  decodeRaises : Bool
  /-- result of `extract_exif_date` -/
  exifDate : Option String
  /-- flag set when `draw_watermark` or `save` raises -/
  renderOrSaveRaises : Bool
deriving DecidableEq, Repr

/-- Embedding of `process_image_file`: every raise is caught by the enclosing
`except Exception` and becomes a printed `[ERROR]`; a missing or empty date
string is the printed `[SKIP]`. -/
def process_image_file (fate : FileFate) : FileOutcome :=
  if fate.decodeRaises then .errorCaught
  else
    match fate.exifDate with
    | none => .skipped
    | some d =>
      if d.data.isEmpty then .skipped       -- `if not date_text` on ""
      else if fate.renderOrSaveRaises then .errorCaught
      else .ok

/-- Embedding of `main` (lines 235–259): exit 1 when the input does not exist, exit 1
when no supported files are found, else process every file (each outcome an
uninterpreted function of the file) and exit 0.  Returns the exit code and
the per-file outcomes. -/
def mainRun (input : InputPath) (fateOf : String → FileFate) :
    Nat × List FileOutcome :=
  if !input.pathExists then (1, [])
  else
    let files := iter_image_files input
    if files.isEmpty then (1, [])
    else (0, files.map fun f => process_image_file (fateOf f))

/-- Model of `out_path = out_dir / image_path.name` (line 225): the output file keeps
the filename of the input. -/
def outputPathFor (outDir : List String) (fileName : String) : List String :=
  outDir ++ [fileName]

/-! Section: Theorems -/

/-- Claim C1: For every image size `(W,H)`, watermark size `(w,h)` and margin
`m`, resolving a preset placement returns exactly the anchor formulas —
TopLeft `(m,m)`, TopRight `(W−w−m,m)`, BottomLeft `(m,H−h−m)`, BottomRight
`(W−w−m,H−h−m)`, Center `((W−w)/2,(H−h)/2)` with floor division — in both
implementations (`compute_position` of the CLI and the `WATERMARK_POSITIONS`
table of the app), and `W=800,H=600,w=100,h=40,m=12` at BottomRight gives
`(688,548)`. -/
theorem C1_preset_anchor_formulas :
    (∀ W H w h m : Int,
      compute_position (W, H) (w, h) "tl" m = (m, m) ∧
      compute_position (W, H) (w, h) "tr" m = (W - w - m, m) ∧
      compute_position (W, H) (w, h) "bl" m = (m, H - h - m) ∧
      compute_position (W, H) (w, h) "br" m = (W - w - m, H - h - m) ∧
      compute_position (W, H) (w, h) "center" m
        = ((W - w).fdiv 2, (H - h).fdiv 2)) ∧
    (∀ W H w h m : Int,
      (lookupPosition "tl").map (fun f => f W H w h m) = some (m, m) ∧
      (lookupPosition "tr").map (fun f => f W H w h m) = some (W - w - m, m) ∧
      (lookupPosition "bl").map (fun f => f W H w h m) = some (m, H - h - m) ∧
      (lookupPosition "br").map (fun f => f W H w h m)
        = some (W - w - m, H - h - m) ∧
      (lookupPosition "center").map (fun f => f W H w h m)
        = some ((W - w).fdiv 2, (H - h).fdiv 2)) ∧
    compute_position (800, 600) (100, 40) "br" 12 = (688, 548) ∧
    (lookupPosition "br").map (fun f => f 800 600 100 40 12)
      = some (688, 548) := by
  refine ⟨fun W H w h m => ⟨rfl, rfl, rfl, rfl, rfl⟩,
          fun W H w h m => ⟨rfl, rfl, rfl, rfl, rfl⟩, rfl, rfl⟩

/-- Claim C6: The computed output name is `stem+ext` under KeepOriginal,
`prefix+stem+ext` under AddPrefix and `stem+suffix+ext` under AddSuffix,
where `ext` is forced to `.png` or `.jpg` by the selected output format
(the two combo entries) and the source extension is always discarded;
`"photo"` with AddPrefix `"wm_"` and JPEG yields `"wm_photo.jpg"` for every
source extension. -/
theorem C6_output_filename_policy :
    (∀ stem src p s : String,
      get_output_filename stem src "PNG (*.png)" .keepName = stem ++ ".png" ∧
      get_output_filename stem src "JPEG (*.jpg)" .keepName = stem ++ ".jpg" ∧
      get_output_filename stem src "PNG (*.png)" (.addPrefixRule p)
        = p ++ stem ++ ".png" ∧
      get_output_filename stem src "JPEG (*.jpg)" (.addPrefixRule p)
        = p ++ stem ++ ".jpg" ∧
      get_output_filename stem src "PNG (*.png)" (.addSuffixRule s)
        = stem ++ s ++ ".png" ∧
      get_output_filename stem src "JPEG (*.jpg)" (.addSuffixRule s)
        = stem ++ s ++ ".jpg") ∧
    (∀ stem src src' fmt rule,
      get_output_filename stem src fmt rule
        = get_output_filename stem src' fmt rule) ∧
    (∀ src : String,
      get_output_filename "photo" src "JPEG (*.jpg)" (.addPrefixRule "wm_")
        = "wm_photo.jpg") := by
  refine ⟨fun stem src p s => ⟨rfl, rfl, rfl, rfl, rfl, rfl⟩,
          fun stem src src' fmt rule => rfl, fun src => rfl⟩

/-- Claim C7: `main` exits 1 exactly when the input path does not exist or no
supported image files are found, and 0 otherwise; the per-file outcomes
(each one of `ok`/`skipped`/`errorCaught`, never a propagated exception) do
not influence the exit code. -/
theorem C7_exit_codes :
    (∀ (input : InputPath) (fateOf : String → FileFate),
      ((mainRun input fateOf).1 = 1
        ↔ (input.pathExists = false ∨ iter_image_files input = [])) ∧
      ((mainRun input fateOf).1 = 0
        ↔ (input.pathExists = true ∧ iter_image_files input ≠ []))) ∧
    (∀ (input : InputPath) (fateOf fateOf' : String → FileFate),
      (mainRun input fateOf).1 = (mainRun input fateOf').1) ∧
    (∀ fate, process_image_file fate = .ok ∨ process_image_file fate = .skipped
      ∨ process_image_file fate = .errorCaught) := by
  have key : ∀ (input : InputPath) (fateOf : String → FileFate),
      (mainRun input fateOf).1
        = if !input.pathExists then 1
          else if iter_image_files input = [] then 1 else 0 := by
    intro input fateOf
    unfold mainRun
    by_cases h : input.pathExists
    · simp [h, List.isEmpty_iff]
      split <;> rfl
    · simp [Bool.not_eq_true] at h
      simp [h]
  refine ⟨fun input fateOf => ?_, fun input f f' => by rw [key, key], fun fate => ?_⟩
  · rw [key]
    constructor <;>
      · by_cases h : input.pathExists <;>
          by_cases h2 : iter_image_files input = [] <;> simp_all
  · unfold process_image_file
    rcases fate with ⟨d, e, r⟩
    rcases d
    · rcases e with _ | s
      · simp
      · by_cases hs : s.data.isEmpty <;> rcases r <;> simp [hs]
    · simp

/-- Claim C8, counterexample: The claim says the output directory is a
*sibling* of the source directory.  For the source directory `/photos` the
code produces `/photos/photos_watermark` — a directory whose parent is the
source directory itself, not the parent of the source directory (a sibling would
be `/photos_watermark`).  Hence the output directory is a child, not a
sibling. -/
theorem C8_counterexample_not_sibling :
    ensure_output_dir ["photos"] = ["photos", "photos_watermark"] ∧
    (ensure_output_dir ["photos"]).dropLast ≠ (["photos"] : List String).dropLast ∧
    (ensure_output_dir ["photos"]).dropLast = ["photos"] := by
  refine ⟨rfl, by decide, rfl⟩

/-- Claim C8, amended: Output files are written into a *subdirectory of the
source directory* named `<source-dir-name>_watermark` (the output
parent of the output directory is the source directory itself), and each
output file shares the filename of its input file. -/
theorem C8_output_dir_amended (base : List String) (name fileName : String)
    (hbase : base.getLast? = some name) :
    ensure_output_dir base = base ++ [name ++ "_watermark"] ∧
    (ensure_output_dir base).dropLast = base ∧
    (outputPathFor (ensure_output_dir base) fileName).getLast? = some fileName := by
  have h1 : ensure_output_dir base = base ++ [name ++ "_watermark"] := by
    unfold ensure_output_dir
    rw [hbase]
    rfl
  refine ⟨h1, ?_, ?_⟩
  · rw [h1, List.dropLast_concat]
  · unfold outputPathFor
    simp

/-- Claim C8, witness: Instantiation at the source directory `/photos` and the
input file `img.jpg`. -/
theorem C8_output_dir_amended_witness :
    (["photos"] : List String).getLast? = some "photos" ∧
    ensure_output_dir ["photos"] = ["photos", "photos_watermark"] ∧
    (outputPathFor (ensure_output_dir ["photos"]) "img.jpg").getLast?
      = some "img.jpg" := by
  have h := C8_output_dir_amended ["photos"] "photos" "img.jpg" rfl
  exact ⟨rfl, h.1, h.2.2⟩

/-- Claim C2: Whenever the stored preview point of a Custom placement is
successfully mapped (the tag parses, no preview dimension is zero; the
mapped point is whatever the floating-point transform produced), the
resolver returns it clamped by `max(0, min(·, W−w))` / `max(0, min(·, H−h))`
on the two axes: the result is never negative, never beyond `W−w` (resp.
`H−h`) when the watermark fits, and is exactly 0 on an axis where the
watermark exceeds the image. -/
theorem C2_custom_clamp (toFull : Int → Int → Int × Int)
    (last_position : String) (pw ph W H w h m x y : Int)
    (hcustom : pyStartsWith "custom_" last_position = true)
    (hok : tryCustomPosition toFull last_position pw ph W H w h = some (x, y)) :
    calculate_watermark_position toFull last_position pw ph W H w h m = (x, y) ∧
    (∃ x0 y0, x = max 0 (min x0 (W - w)) ∧ y = max 0 (min y0 (H - h))) ∧
    0 ≤ x ∧ (w ≤ W → x ≤ W - w) ∧ (W < w → x = 0) ∧
    0 ≤ y ∧ (h ≤ H → y ≤ H - h) ∧ (H < h → y = 0) := by
  have hres : calculate_watermark_position toFull last_position pw ph
      W H w h m = (x, y) := by
    unfold calculate_watermark_position
    rw [hcustom, hok]
    rfl
  have hclamp : ∃ x0 y0, x = max 0 (min x0 (W - w)) ∧
      y = max 0 (min y0 (H - h)) := by
    unfold tryCustomPosition at hok
    split at hok
    · split at hok
      · exact absurd hok (by simp)
      · split at hok
        · rename_i px py hsplit hdims px' py' hpx hpy
          refine ⟨(toFull px' py').1, (toFull px' py').2, ?_⟩
          simp only [Option.some.injEq, Prod.mk.injEq] at hok
          exact ⟨hok.1.symm, hok.2.symm⟩
        · exact absurd hok (by simp)
    · exact absurd hok (by simp)
  obtain ⟨x0, y0, hx, hy⟩ := hclamp
  refine ⟨hres, ⟨x0, y0, hx, hy⟩, ?_, ?_, ?_, ?_, ?_, ?_⟩ <;> omega

/-- Claim C2, witness: Preview point `(900, 20)` (identity transform) on an
800×600 image with a 100×40 watermark: `x` is clamped from 900 down to 700,
`y` stays 20; the resolver returns exactly `(700, 20)`. -/
theorem C2_custom_clamp_witness :
    pyStartsWith "custom_" "custom_900_20" = true ∧
    tryCustomPosition (fun a b => (a, b)) "custom_900_20" 1 1 800 600 100 40
      = some (700, 20) ∧
    calculate_watermark_position (fun a b => (a, b)) "custom_900_20" 1 1
      800 600 100 40 12 = (700, 20) ∧
    (0 : Int) ≤ 700 ∧ (700 : Int) ≤ 800 - 100 := by
  have h := C2_custom_clamp (fun a b => (a, b)) "custom_900_20" 1 1
    800 600 100 40 12 700 20 (by decide) (by decide)
  exact ⟨by decide, by decide, h.1, h.2.2.1, h.2.2.2.1 (by decide)⟩

/-- Claim C3: Whenever resolving a Custom placement fails — the stored tag
does not split into exactly three `_`-separated fields, a coordinate field
is not an integer literal, or a preview dimension is zero (the
`ZeroDivisionError` case) — the resolver raises nothing (the model is a
total function covering the `except:` handler) and returns the BottomRight
preset position `(W−w−m, H−h−m)` computed with the current margin. -/
theorem C3_custom_failure_fallback :
    (∀ (toFull : Int → Int → Int × Int) (last_position : String)
        (pw ph W H w h m : Int),
      pyStartsWith "custom_" last_position = true →
      tryCustomPosition toFull last_position pw ph W H w h = none →
      calculate_watermark_position toFull last_position pw ph W H w h m
        = (W - w - m, H - h - m)) ∧
    (∀ (toFull : Int → Int → Int × Int) (last_position : String)
        (pw ph W H w h : Int),
      (tryCustomPosition toFull last_position pw ph W H w h = none ↔
        match pySplitChar '_' last_position with
        | [_, px, py] =>
          pw = 0 ∨ ph = 0 ∨ pyInt? px = none ∨ pyInt? py = none
        | _ => True)) := by
  constructor
  · intro toFull last_position pw ph W H w h m hcustom hfail
    unfold calculate_watermark_position
    rw [hcustom, hfail]
    rfl
  · intro toFull last_position pw ph W H w h
    unfold tryCustomPosition
    split
    · rename_i x0 px py heq
      by_cases hpw : pw = 0
      · simp [hpw]
      · by_cases hph : ph = 0
        · simp [hph]
        · simp only [hpw, hph, decide_False, Bool.or_self,
            Bool.false_eq_true, if_false, false_or]
          cases hpx : pyInt? px <;> cases hpy : pyInt? py <;> simp_all
    · simp

/-- Claim C3, witness: Three concrete failures — non-integer coordinate
(`custom_abc_5`), four fields (`custom_1_2_3`), and a zero preview width —
each fall back to BottomRight `(688, 548)` on the 800×600 / 100×40 / m=12
configuration. -/
theorem C3_custom_failure_fallback_witness :
    calculate_watermark_position (fun a b => (a, b)) "custom_abc_5" 1 1
      800 600 100 40 12 = (688, 548) ∧
    calculate_watermark_position (fun a b => (a, b)) "custom_1_2_3" 1 1
      800 600 100 40 12 = (688, 548) ∧
    calculate_watermark_position (fun a b => (a, b)) "custom_10_20" 0 1
      800 600 100 40 12 = (688, 548) ∧
    tryCustomPosition (fun a b => (a, b)) "custom_abc_5" 1 1 800 600 100 40
      = none := by
  refine ⟨?_, ?_, ?_, by decide⟩
  · exact C3_custom_failure_fallback.1 (fun a b => (a, b)) "custom_abc_5"
      1 1 800 600 100 40 12 (by decide) (by decide)
  · exact C3_custom_failure_fallback.1 (fun a b => (a, b)) "custom_1_2_3"
      1 1 800 600 100 40 12 (by decide) (by decide)
  · exact C3_custom_failure_fallback.1 (fun a b => (a, b)) "custom_10_20"
      0 1 800 600 100 40 12 (by decide) (by decide)

/-- Python `split` never yields an empty list (`"".split(" ") == [""]`). -/
theorem pySplitCharAux_ne_nil (sep : Char) (l acc : List Char) :
    pySplitCharAux sep l acc ≠ [] := by
  induction l generalizing acc with
  | nil => simp [pySplitCharAux]
  | cons c rest ih =>
    unfold pySplitCharAux
    split
    · simp
    · exact ih _

/-- The first token of Python `s.strip().split(" ")` always exists, and
`dateFromStr` returns it with colons replaced by hyphens. -/
theorem dateFromStr_eq (s : String) :
    dateFromStr s
      = some (pyReplaceChar ':' '-' ((pySplitChar ' ' (pyStrip s)).headI)) := by
  unfold dateFromStr
  cases hsplit : pySplitChar ' ' (pyStrip s) with
  | nil =>
    rw [pySplitChar] at hsplit
    have hne := pySplitCharAux_ne_nil ' ' (pyStrip s).data []
    simp_all
  | cons d rest => simp

/-- Claim C4, counterexample: The claim says the *first whitespace-delimited
token* of the tag value is taken.  The source splits on single spaces only
(`value.strip().split(" ")`): on the tag value `"2023:11:05\t14:22:10"`
(tab-separated) the first whitespace-delimited token is `"2023:11:05"`, so
the claim predicts `"2023-11-05"`, but the code keeps the whole string as
one token and returns `"2023-11-05\t14-22-10"`. -/
theorem C4_counterexample_tab_separator :
    extract_exif_date
        (some ⟨some (.vStr "2023:11:05\t14:22:10"), none, none, false⟩)
      = some "2023-11-05\t14-22-10" ∧
    extract_exif_date
        (some ⟨some (.vStr "2023:11:05\t14:22:10"), none, none, false⟩)
      ≠ some "2023-11-05" := by
  constructor
  · rfl
  · decide

/-- Claim C4, amended: `extract_exif_date` checks the tags in priority order
DateTimeOriginal, DateTimeDigitized, DateTime; for the first tag present
with a non-empty string value it strips surrounding whitespace, takes the
first *space*-delimited token (the value is split on single spaces, not on
general whitespace) and replaces colons with hyphens, so
`"2023:11:05 14:22:10"` yields `"2023-11-05"`; a date string that fails
strict parsing is still returned in this best-effort hyphen-substituted form
(the `strptime` check is a no-op `try/except: pass`); and if all three tags
are absent the result is `none`. -/
theorem C4_exif_date_normalization (s : String) (v2 v3 : Option ExifValue)
    (other : Bool) (hs : s.data ≠ []) :
    extract_exif_date (some ⟨some (.vStr s), v2, v3, other⟩)
      = some (pyReplaceChar ':' '-' ((pySplitChar ' ' (pyStrip s)).headI)) ∧
    (∀ other', extract_exif_date (some ⟨none, some (.vStr s), v3, other'⟩)
      = some (pyReplaceChar ':' '-' ((pySplitChar ' ' (pyStrip s)).headI))) ∧
    (∀ other', extract_exif_date (some ⟨none, none, some (.vStr s), other'⟩)
      = some (pyReplaceChar ':' '-' ((pySplitChar ' ' (pyStrip s)).headI))) ∧
    extract_exif_date
        (some ⟨some (.vStr "2023:11:05 14:22:10"), none, none, false⟩)
      = some "2023-11-05" ∧
    extract_exif_date (some ⟨some (.vStr "9999:99 junk"), none, none, false⟩)
      = some "9999-99" ∧
    (∀ other', extract_exif_date (some ⟨none, none, none, other'⟩) = none) := by
  have hloop : ∀ rest, extractLoop (some (.vStr s) :: rest)
      = some (pyReplaceChar ':' '-' ((pySplitChar ' ' (pyStrip s)).headI)) := by
    intro rest
    unfold extractLoop
    have ht : (ExifValue.vStr s).truthy = true := by
      simp [ExifValue.truthy, hs]
    rw [ht]
    simp only [Bool.not_true, Bool.false_eq_true, if_false, ExifValue.asStr,
      dateFromStr_eq]
  refine ⟨?_, fun o' => ?_, fun o' => ?_, rfl, rfl, fun o' => ?_⟩
  · rw [extract_exif_date]
    have : Exif.isEmptyDict ⟨some (.vStr s), v2, v3, other⟩ = false := by
      simp [Exif.isEmptyDict]
    rw [this]
    exact hloop _
  · rw [extract_exif_date]
    have : Exif.isEmptyDict ⟨none, some (.vStr s), v3, o'⟩ = false := by
      simp [Exif.isEmptyDict]
    rw [this]
    exact hloop _
  · rw [extract_exif_date]
    have : Exif.isEmptyDict ⟨none, none, some (.vStr s), o'⟩ = false := by
      simp [Exif.isEmptyDict]
    rw [this]
    exact hloop _
  · rw [extract_exif_date]
    cases o' <;> rfl

/-- Claim C4, amended, witness: The priority statements instantiated on the
tag value `"2023:11:05 14:22:10"` (with arbitrary junk in the
lower-priority tags): the normalized date is `"2023-11-05"`. -/
theorem C4_exif_date_normalization_witness :
    ("2023:11:05 14:22:10" : String).data ≠ [] ∧
    extract_exif_date
        (some ⟨some (.vStr "2023:11:05 14:22:10"),
               some (.vStr "1999:01:01 00:00:00"), some (.vOther true), true⟩)
      = some "2023-11-05" ∧
    extract_exif_date (some ⟨none, none, none, true⟩) = none := by
  have h := C4_exif_date_normalization "2023:11:05 14:22:10"
    (some (.vStr "1999:01:01 00:00:00")) (some (.vOther true)) true (by decide)
  exact ⟨by decide, h.1, h.2.2.2.2.2 true⟩

/-- Claim C9: `extract_exif_date` is total: it is a function into
`Option String` (never an exception — every Python raise site sits inside
the `try/except` or `isinstance` guards of the source, and the model covers every
input shape).  An unreadable EXIF block (`none`) and an empty EXIF dict
yield `none`; a falsy tag value is skipped; a byte-string value is decoded
UTF-8-with-errors-ignored and then normalized like a string; a value that
is neither `str` nor `bytes` is skipped rather than raising. -/
theorem C9_extract_total :
    extract_exif_date none = none ∧
    (∀ e : Exif, e.isEmptyDict = true → extract_exif_date (some e) = none) ∧
    (∀ (v : ExifValue) (rest : List (Option ExifValue)), v.truthy = false →
      extractLoop (some v :: rest) = extractLoop rest) ∧
    (∀ (bs : List Nat) (rest : List (Option ExifValue)), bs ≠ [] →
      extractLoop (some (.vBytes bs) :: rest)
        = some (pyReplaceChar ':' '-'
            ((pySplitChar ' ' (pyStrip (decodeUtf8Ignore bs))).headI))) ∧
    (∀ (t : Bool) (rest : List (Option ExifValue)),
      extractLoop (some (.vOther t) :: rest) = extractLoop rest) ∧
    (∀ e, extract_exif_date e = none ∨ ∃ s, extract_exif_date e = some s) := by
  refine ⟨rfl, fun e he => ?_, fun v rest hv => ?_, fun bs rest hbs => ?_,
    fun t rest => ?_, fun e => ?_⟩
  · simp [extract_exif_date, he]
  · simp [extractLoop, hv]
  · have ht : (ExifValue.vBytes bs).truthy = true := by
      simp [ExifValue.truthy, hbs]
    simp only [extractLoop, ht, Bool.not_true, Bool.false_eq_true, if_false,
      ExifValue.asStr, dateFromStr_eq]
  · cases t <;> simp [extractLoop, ExifValue.truthy, ExifValue.asStr]
  · cases h : extract_exif_date e
    · exact Or.inl rfl
    · exact Or.inr ⟨_, rfl⟩

/-- Claim C9, witness: Concrete inputs: the empty EXIF dict yields `none`; an
empty-string `DateTimeOriginal` is skipped in favour of `DateTime`; the
byte string `b"2023:11:05 14:22:10"` decodes and normalizes to
`"2023-11-05"`; a non-`str`/`bytes` value is skipped. -/
theorem C9_extract_total_witness :
    extract_exif_date (some ⟨none, none, none, false⟩) = none ∧
    extractLoop [some (.vStr ""), some (.vStr "2020:01:02 03:04:05")]
      = some "2020-01-02" ∧
    extractLoop [some (.vBytes [50, 48, 50, 51, 58, 49, 49, 58, 48, 53,
        32, 49, 52, 58, 50, 50, 58, 49, 48])]
      = some "2023-11-05" ∧
    extractLoop [some (.vOther true), some (.vStr "2020:01:02 03:04:05")]
      = some "2020-01-02" := by
  refine ⟨C9_extract_total.2.1 ⟨none, none, none, false⟩ rfl, ?_, ?_, ?_⟩
  · rw [C9_extract_total.2.2.1 (.vStr "") _ rfl]
    rfl
  · rw [C9_extract_total.2.2.2.1 [50, 48, 50, 51, 58, 49, 49, 58, 48, 53,
        32, 49, 52, 58, 50, 50, 58, 49, 48] [] (by decide)]
    rfl
  · rw [C9_extract_total.2.2.2.2.1 true]
    rfl

set_option maxRecDepth 4000 in
/-- Exactness of the Pillow division trick: weighting a sample by a full mask
(`255`) returns the sample, for every 8-bit sample value. -/
theorem muldiv255_full (d : Nat) (hd : d < 256) : muldiv255 d 255 = d := by
  revert hd
  revert d
  decide

/-- Weighting a sample by a zero mask gives 0. -/
theorem muldiv255_zero (s : Nat) : muldiv255 s 0 = 0 := by
  simp [muldiv255]

/-- A zero mask leaves the destination sample unchanged. -/
theorem blendSample_zero_mask (d s : Nat) (hd : d ≤ 255) :
    blendSample 0 d s = d := by
  unfold blendSample
  rw [Nat.sub_zero, muldiv255_full d (by omega), muldiv255_zero]
  omega

/-- A zero-alpha source pixel leaves a valid destination pixel unchanged. -/
theorem blendPixel_zero_alpha (d s : RGBA) (hd : d.valid) (hs : s.a = 0) :
    blendPixel d s = d := by
  obtain ⟨h1, h2, h3, h4⟩ := hd
  unfold blendPixel
  rw [hs]
  rcases d with ⟨r, g, b, a⟩
  simp only [RGBA.mk.injEq]
  exact ⟨blendSample_zero_mask _ _ h1, blendSample_zero_mask _ _ h2,
    blendSample_zero_mask _ _ h3, blendSample_zero_mask _ _ h4⟩

/-- Every pixel obtained from the alpha-scaled overlay at opacity 0 has
alpha 0. -/
theorem pixelAt_scaleAlpha_zero (wm : Img) (i j : Int) (s : RGBA)
    (h : pixelAt (scaleAlpha 0 wm) i j = some s) : s.a = 0 := by
  unfold pixelAt scaleAlpha at h
  split at h
  · rw [List.getElem?_map] at h
    cases hrow0 : wm[j.toNat]? with
    | none =>
      rw [hrow0] at h
      simp at h
    | some row0 =>
      rw [hrow0] at h
      simp only [Option.map_some'] at h
      rw [List.getElem?_map] at h
      cases hp : row0[i.toNat]? with
      | none =>
        rw [hp] at h
        simp at h
      | some p =>
        rw [hp] at h
        simp only [Option.map_some', Option.some.injEq] at h
        rw [← h]
        simp
  · exact absurd h (by simp)

/-- If the per-pixel function fixes every pixel of a row, mapping it over
the row is the identity. -/
theorem mapRowIdx_id (f : Nat → RGBA → RGBA) (row : List RGBA) (i0 : Nat)
    (hf : ∀ i p, p ∈ row → f i p = p) : mapRowIdx f i0 row = row := by
  induction row generalizing i0 with
  | nil => rfl
  | cons p rest ih =>
    unfold mapRowIdx
    rw [hf i0 p (by simp), ih (i0 + 1) (fun i q hq => hf i q (by simp [hq]))]

/-- If the per-pixel function fixes every pixel of a raster, mapping it over
the raster is the identity. -/
theorem mapImgIdx_id (f : Nat → Nat → RGBA → RGBA) (img : Img) (j0 : Nat)
    (hf : ∀ i j p, (∃ row ∈ img, p ∈ row) → f i j p = p) :
    mapImgIdx f j0 img = img := by
  induction img generalizing j0 with
  | nil => rfl
  | cons row rest ih =>
    unfold mapImgIdx
    rw [mapRowIdx_id _ row 0 (fun i p hp => hf i j0 p ⟨row, by simp, hp⟩),
      ih (j0 + 1) (fun i j p ⟨r, hr, hp⟩ => hf i j p ⟨r, by simp [hr], hp⟩)]

/-- Claim C5: For every valid base raster and every overlay raster at every
paste position, rendering the image watermark with `opacityPercent = 0`
returns the base raster pixel-for-pixel: the alpha scaling multiplies each
overlay alpha sample by `0/100` (floor) giving mask 0 everywhere while RGB
is untouched, and a masked paste with mask 0 is the identity on the base. -/
theorem C5_opacity_zero_identity (img wm : Img) (x y : Int)
    (hvalid : img.valid) :
    apply_image_watermark img wm 0 x y = img ∧
    ((scaleAlpha 0 wm).all fun row => row.all fun q => q.a == 0) = true ∧
    (scaleAlpha 0 wm).map (List.map fun q => (q.r, q.g, q.b))
      = wm.map (List.map fun q => (q.r, q.g, q.b)) := by
  refine ⟨?_, ?_, ?_⟩
  · unfold apply_image_watermark pasteMasked
    apply mapImgIdx_id
    intro i j p hp
    rcases hpx : pixelAt (scaleAlpha 0 wm) ((i : Int) - x) ((j : Int) - y)
      with _ | s
    · simp [hpx]
    · simp only [hpx]
      obtain ⟨row, hrow, hmem⟩ := hp
      exact blendPixel_zero_alpha p s (hvalid row hrow p hmem)
        (pixelAt_scaleAlpha_zero wm _ _ s hpx)
  · simp [scaleAlpha, List.all_eq_true]
  · simp [scaleAlpha, List.map_map, Function.comp]

/-- Claim C5, witness: A 2×2 base image with an overlapping 1×1 overlay at
position `(1, 0)`: opacity 0 leaves the base pixel-identical. -/
theorem C5_opacity_zero_identity_witness :
    Img.valid [[⟨10, 20, 30, 255⟩, ⟨40, 50, 60, 128⟩],
               [⟨70, 80, 90, 0⟩, ⟨255, 255, 255, 255⟩]] ∧
    apply_image_watermark
        [[⟨10, 20, 30, 255⟩, ⟨40, 50, 60, 128⟩],
         [⟨70, 80, 90, 0⟩, ⟨255, 255, 255, 255⟩]]
        [[⟨1, 2, 3, 200⟩]] 0 1 0
      = [[⟨10, 20, 30, 255⟩, ⟨40, 50, 60, 128⟩],
         [⟨70, 80, 90, 0⟩, ⟨255, 255, 255, 255⟩]] :=
  ⟨by decide,
   (C5_opacity_zero_identity
      [[⟨10, 20, 30, 255⟩, ⟨40, 50, 60, 128⟩],
       [⟨70, 80, 90, 0⟩, ⟨255, 255, 255, 255⟩]]
      [[⟨1, 2, 3, 200⟩]] 1 0 (by decide)).1⟩

/-- The code-point order on character lists is total. -/
theorem lexLe_total (a : List Char) :
    ∀ b, lexLe a b = true ∨ lexLe b a = true := by
  induction a with
  | nil => intro b; exact Or.inl rfl
  | cons x xs ih =>
    intro b
    cases b with
    | nil => exact Or.inr rfl
    | cons y ys =>
      unfold lexLe
      rcases Nat.lt_trichotomy x.toNat y.toNat with h | h | h
      · left
        simp [h]
      · have h1 : ¬x.toNat < y.toNat := by omega
        have h2 : ¬y.toNat < x.toNat := by omega
        simpa [h1, h2] using ih ys
      · right
        simp [h]

/-- The code-point order on character lists is transitive. -/
theorem lexLe_trans (a : List Char) :
    ∀ b c, lexLe a b = true → lexLe b c = true → lexLe a c = true := by
  induction a with
  | nil => intro b c _ _; rfl
  | cons x xs ih =>
    intro b c hab hbc
    cases b with
    | nil => simp [lexLe] at hab
    | cons y ys =>
      cases c with
      | nil => simp [lexLe] at hbc
      | cons z zs =>
        unfold lexLe at hab hbc ⊢
        by_cases h1 : x.toNat < y.toNat
        · by_cases h2 : y.toNat < z.toNat
          · simp [show x.toNat < z.toNat by omega]
          · by_cases h3 : z.toNat < y.toNat
            · simp [h2, h3] at hbc
            · simp [show x.toNat < z.toNat by omega]
        · by_cases h4 : y.toNat < x.toNat
          · simp [h1, h4] at hab
          · by_cases h2 : y.toNat < z.toNat
            · simp [show x.toNat < z.toNat by omega]
            · by_cases h3 : z.toNat < y.toNat
              · simp [h2, h3] at hbc
              · simp [h1, h4] at hab
                simp [h2, h3] at hbc
                simp [show ¬x.toNat < z.toNat by omega,
                  show ¬z.toNat < x.toNat by omega]
                exact ih ys zs hab hbc

/-- Inserting into a list yields the element plus the list. -/
theorem insertEntry_perm (e : FsEntry) (l : List FsEntry) :
    List.Perm (insertEntry e l) (e :: l) := by
  induction l with
  | nil => rfl
  | cons y ys ih =>
    unfold insertEntry
    by_cases h : entryLe e y
    · simp [h]
    · simp only [h, Bool.false_eq_true, if_false]
      exact (ih.cons y).trans (List.Perm.swap e y ys)

/-- Sorting permutes: same entries before and after. -/
theorem sortEntries_perm (l : List FsEntry) : List.Perm (sortEntries l) l := by
  induction l with
  | nil => rfl
  | cons e es ih => exact (insertEntry_perm e (sortEntries es)).trans (ih.cons e)

/-- Membership is preserved by sorting. -/
theorem sortEntries_mem (x : FsEntry) (l : List FsEntry) :
    x ∈ sortEntries l ↔ x ∈ l :=
  (sortEntries_perm l).mem_iff

/-- Inserting into a name-sorted list keeps it name-sorted. -/
theorem insertEntry_pairwise (e : FsEntry) (l : List FsEntry)
    (hl : l.Pairwise fun a b => entryLe a b = true) :
    (insertEntry e l).Pairwise fun a b => entryLe a b = true := by
  induction l with
  | nil => simp [insertEntry]
  | cons y ys ih =>
    rw [List.pairwise_cons] at hl
    unfold insertEntry
    by_cases h : entryLe e y
    · simp only [h, if_true]
      refine List.Pairwise.cons ?_ (List.Pairwise.cons hl.1 hl.2)
      intro z hz
      rcases hz with _ | hz
      · exact h
      · exact lexLe_trans _ _ _ h (hl.1 _ (by assumption))
    · simp only [h, Bool.false_eq_true, if_false]
      refine List.Pairwise.cons ?_ (ih hl.2)
      intro z hz
      rcases List.mem_cons.mp ((insertEntry_perm e ys).mem_iff.mp hz)
        with hz2 | hz2
      · rw [hz2]
        rcases lexLe_total e.name.data y.name.data with ht | ht
        · exact absurd ht h
        · exact ht
      · exact hl.1 z hz2

/-- The sorted entry list is name-sorted. -/
theorem sortEntries_pairwise (l : List FsEntry) :
    (sortEntries l).Pairwise fun a b => entryLe a b = true := by
  induction l with
  | nil => exact List.Pairwise.nil
  | cons e es ih => exact insertEntry_pairwise e (sortEntries es) ih

/-- Claim C10: For a directory input, `iter_image_files` yields exactly the
regular files directly inside it (the `iterdir()` children — no recursion)
whose lowercase suffix is a supported extension: the yield is a permutation
of that filtered child list's names, hence membership-exact, and it is in
sorted (code-point) path order.  A single-file input yields itself when its
suffix is supported and nothing when it is not. -/
theorem C10_iter_image_files :
    (∀ (es : List FsEntry) (n : String),
      n ∈ iter_image_files (.dir es)
        ↔ ∃ e ∈ es, e.name = n ∧ e.isFile = true
            ∧ hasSupportedExt e.name = true) ∧
    (∀ es : List FsEntry,
      List.Perm (iter_image_files (.dir es))
        ((es.filter fun e => e.isFile && hasSupportedExt e.name).map
            FsEntry.name)) ∧
    (∀ es : List FsEntry,
      (iter_image_files (.dir es)).Pairwise
        fun a b => lexLe a.data b.data = true) ∧
    (∀ n, hasSupportedExt n = false → iter_image_files (.file n) = []) ∧
    (∀ n, hasSupportedExt n = true → iter_image_files (.file n) = [n]) := by
  have hperm : ∀ es : List FsEntry,
      List.Perm (iter_image_files (.dir es))
        ((es.filter fun e => e.isFile && hasSupportedExt e.name).map
            FsEntry.name) := by
    intro es
    unfold iter_image_files
    exact ((sortEntries_perm es).filter _).map _
  refine ⟨fun es n => ?_, hperm, fun es => ?_, fun n hn => ?_, fun n hn => ?_⟩
  · rw [(hperm es).mem_iff]
    simp only [List.mem_map, List.mem_filter, Bool.and_eq_true]
    constructor
    · rintro ⟨e, ⟨he, hf, hx⟩, hname⟩
      exact ⟨e, he, hname, hf, hx⟩
    · rintro ⟨e, he, hname, hf, hx⟩
      exact ⟨e, ⟨he, hf, hx⟩, hname⟩
  · unfold iter_image_files
    exact (List.Pairwise.filter _ (sortEntries_pairwise es)).map _
      fun a b hab => hab
  · simp [iter_image_files, hn]
  · simp [iter_image_files, hn]

/-- Claim C10, witness: A directory holding `b.png`, `a.JPG`, a subdirectory
entry `a_dir.png` (not a regular file) and `notes.txt`: the yield is
`[a.JPG, b.png]` — membership, order and the filter all as stated; a lone
`photo.txt` yields nothing and a lone `photo.webp` yields itself. -/
theorem C10_iter_image_files_witness :
    ("b.png" ∈ iter_image_files (.dir [⟨"b.png", true⟩, ⟨"a.JPG", true⟩,
        ⟨"a_dir.png", false⟩, ⟨"notes.txt", true⟩]) ↔
      ∃ e ∈ [(⟨"b.png", true⟩ : FsEntry), ⟨"a.JPG", true⟩,
          ⟨"a_dir.png", false⟩, ⟨"notes.txt", true⟩],
        e.name = "b.png" ∧ e.isFile = true ∧ hasSupportedExt e.name = true) ∧
    iter_image_files (.dir [⟨"b.png", true⟩, ⟨"a.JPG", true⟩,
        ⟨"a_dir.png", false⟩, ⟨"notes.txt", true⟩]) = ["a.JPG", "b.png"] ∧
    hasSupportedExt "photo.txt" = false ∧
    iter_image_files (.file "photo.txt") = [] ∧
    hasSupportedExt "photo.webp" = true ∧
    iter_image_files (.file "photo.webp") = ["photo.webp"] :=
  ⟨C10_iter_image_files.1 [⟨"b.png", true⟩, ⟨"a.JPG", true⟩,
      ⟨"a_dir.png", false⟩, ⟨"notes.txt", true⟩] "b.png",
   by decide, by decide,
   C10_iter_image_files.2.2.2.1 "photo.txt" (by decide),
   by decide,
   C10_iter_image_files.2.2.2.2 "photo.webp" (by decide)⟩

end Watermark

